import Mathlib

/-!
Verification model of the Game Titles Extractor pipeline
(`gameTitleExtractor.py`).

The program keeps an insertion-ordered registry `console_entries`
mapping console names to directory paths (a Python `dict`), a map
`output_files` from console names to the path of the most recently
written report, a text log, and a progress-bar value.  The pipeline
is `get_game_titles` (directory scan filtered to names ending in
`.zip`), `write_game_titles` (report writer) and `start_process`
(the driver iterating the registry).

File-system access (`os.listdir`, `os.path.exists`, `open(...).write`)
is modelled as an explicit collaborator `FileSystem`; the current date
(`datetime.now().strftime("%Y-%m-%d")`) is passed in as `date_str`.
The Tk progress bar value (a float receiving `+= 100 / total`) is
modelled in `ℚ`.  Python strings are sequences of code points, so the
string predicates are defined over `String.data` character lists.
-/

/-- Python `str.endswith(suffix)`: code-point suffix test, case sensitive. -/
def pyEndsWith (s suf : String) : Bool :=
  List.isSuffixOf suf.data s.data

/-- Python `str.startswith(prefix)` restricted to what `os.path.join` needs. -/
def pyStartsWith (s p : String) : Bool :=
  List.isPrefixOf p.data s.data

/-- POSIX `os.path.join(a, b)` for two components, as in the source:
`b` absolute wins; otherwise a separator is inserted unless `a` is empty
or already ends with one. -/
def joinPath (a b : String) : String :=
  if pyStartsWith b "/" then b
  else if a = "" || pyEndsWith a "/" then a ++ b
  else a ++ "/" ++ b

/-- Python `dict` as an insertion-ordered association list: `d[k] = v`
keeps the position of an existing key and appends a fresh one. -/
def dictSet (d : List (String × String)) (k v : String) : List (String × String) :=
  if d.any (fun p => p.1 == k) then
    d.map (fun p => if p.1 == k then (k, v) else p)
  else
    d ++ [(k, v)]

/-- Python `dict.get(k)`: value of the first (unique) binding of `k`. -/
def dictGet (d : List (String × String)) (k : String) : Option String :=
  (d.find? (fun p => p.1 == k)).map (fun p => p.2)

/-- Keys of the association list, in insertion order (`dict` iteration order). -/
def dictKeys (d : List (String × String)) : List String :=
  d.map Prod.fst

/-- One immediate directory entry as returned by `os.listdir`: a name plus
whether the entry is itself a directory (`os.listdir` reports both kinds). -/
structure DirEntry where
  name : String
  isDir : Bool
deriving DecidableEq, Repr

/-- Outcome of `os.listdir`: the entry list, or one of the exceptions the
source catches (`FileNotFoundError`, `PermissionError`, anything else). -/
inductive ListResult where
  | ok (entries : List DirEntry)
  | notFound
  | permissionDenied
  | ioError (msg : String)
deriving DecidableEq, Repr

/-- Outcome of `open(path, "w")` plus the writes: success, or one of the
exceptions the source catches. -/
inductive WriteResult where
  | ok
  | notFound
  | permissionDenied
  | ioError (msg : String)
deriving DecidableEq, Repr

/-- The file-system collaborator: `os.path.exists`, `os.listdir`, and the
outcome of attempting to write a file at a given path. -/
structure FileSystem where
  pathExists : String → Bool
  listdir : String → ListResult
  writeResult : String → WriteResult

/-- Check whether a listing succeeded. -/
def ListResult.isOk : ListResult → Bool
  | .ok _ => true
  | _ => false

/-- Model of `GameTitlesExtractor.get_game_titles` (source lines 122-134).
Returns the collected titles together with the log lines the call emits.
`os.listdir` returns the whole entry list or raises before the loop runs,
so on an exception the accumulated list is still empty. -/
def get_game_titles (fs : FileSystem) (directory : String) :
    List String × List String :=
  match fs.listdir directory with
  | .ok entries =>
      ((entries.filter (fun e => pyEndsWith e.name ".zip")).map (fun e => e.name), [])
  | .notFound =>
      ([], ["Error: The directory \x27" ++ directory ++ "\x27 does not exist."])
  | .permissionDenied =>
      ([], ["Error: Permission denied to access the directory \x27" ++ directory ++ "\x27."])
  | .ioError e =>
      ([], ["An unexpected error occurred while accessing the directory \x27"
              ++ directory ++ "\x27: " ++ e])

/-- The fixed disclaimer line written after the header (source line 145,
without its trailing newlines). -/
def warning_line (console_name : String) : String :=
  "Warning: We do not know if the list below is actual " ++ console_name
    ++ " game titles or not. Please double-check by yourself."

/-- The title block: the source loops `file.write(title + "\n")`. -/
def titlesBlock : List String → String
  | [] => ""
  | t :: ts => t ++ "\n" ++ titlesBlock ts

/-- Full contents of a report file, concatenating the source's `file.write`
calls: header line, disclaimer line, blank line, then the titles. -/
def report_content (console_name : String) (game_titles : List String) : String :=
  "Console: " ++ console_name ++ "\n"
    ++ warning_line console_name ++ "\n\n"
    ++ titlesBlock game_titles

/-- Result of one `write_game_titles` call: the file written (path and full
contents) if the write completed, the updated `output_files` map, and the
emitted log lines. -/
structure WriteOutcome where
  written : Option (String × String)
  outFiles : List (String × String)
  logLines : List String
deriving DecidableEq, Repr

/-- Model of `GameTitlesExtractor.write_game_titles` (source lines 136-159).
The file name is `f"{console_name}_{date_str}.txt"` joined onto `directory`;
the "Attempting to write" line is logged before the emptiness check; the
file is written and `output_files[console_name]` assigned only when
`game_titles` is non-empty and the write raises no exception. -/
def write_game_titles (fs : FileSystem) (outFiles : List (String × String))
    (directory console_name : String) (game_titles : List String)
    (date_str : String) : WriteOutcome :=
  let file_name := console_name ++ "_" ++ date_str ++ ".txt"
  let file_path := joinPath directory file_name
  let log0 := ["Attempting to write file to: " ++ file_path]
  if game_titles.isEmpty then
    { written := none
      outFiles := outFiles
      logLines := log0 ++ ["No game titles found in the directory: " ++ directory] }
  else
    match fs.writeResult file_path with
    | .ok =>
        { written := some (file_path, report_content console_name game_titles)
          outFiles := dictSet outFiles console_name file_path
          logLines := log0 ++ ["Game titles have been written to " ++ file_path] }
    | .notFound =>
        { written := none
          outFiles := outFiles
          logLines := log0 ++ ["Error: The file path \x27" ++ file_path
                                 ++ "\x27 does not exist."] }
    | .permissionDenied =>
        { written := none
          outFiles := outFiles
          logLines := log0 ++ ["Error: Permission denied to write to the file \x27"
                                 ++ file_path ++ "\x27."] }
    | .ioError e =>
        { written := none
          outFiles := outFiles
          logLines := log0 ++ ["An unexpected error occurred while writing to the file \x27"
                                 ++ file_path ++ "\x27: " ++ e] }

/-- Observable state of the application: the console registry, the selected
console, the `output_files` map, the log pane, the progress-bar value, and
the reports written so far (path and contents, in write order). -/
structure AppState where
  console_entries : List (String × String)
  selected_console : Option String
  output_files : List (String × String)
  log : List String
  progress : ℚ
  written_files : List (String × String)
deriving DecidableEq

/-- Model of `GameTitlesExtractor.select_console` (source lines 95-104): with
a non-empty combobox value the console becomes selected and
`console_entries[name] = console_entries.get(name, "")` runs; otherwise only
an info line is logged. -/
def select_console (s : AppState) (console_name : String) : AppState :=
  if console_name ≠ "" then
    { s with
        selected_console := some console_name
        console_entries := dictSet s.console_entries console_name
          ((dictGet s.console_entries console_name).getD "")
        log := s.log ++ ["Selected console: " ++ console_name] }
  else
    { s with log := s.log ++ ["Info: No console selected."] }

/-- Python rendering of `selected_console` in the first debug line
(`None` for `None`, the bare string otherwise, as f-string `str()`). -/
def showSelected : Option String → String
  | none => "None"
  | some c => c

/-- Comma-separated `'key': 'value'` pairs of a Python `dict` repr. -/
def reprPairs : List (String × String) → String
  | [] => ""
  | [p] => "\x27" ++ p.1 ++ "\x27: \x27" ++ p.2 ++ "\x27"
  | p :: ps => "\x27" ++ p.1 ++ "\x27: \x27" ++ p.2 ++ "\x27, " ++ reprPairs ps

/-- Python `str(dict)` rendering used by the second debug line. -/
def reprDict (d : List (String × String)) : String :=
  "\x7b" ++ reprPairs d ++ "\x7d"

/-- The two debug lines emitted at the top of `start_process`
(source lines 162-163). -/
def debugLines (s : AppState) : List String :=
  ["Debug: Start process initiated. Selected console: "
     ++ showSelected s.selected_console,
   "Debug: Console entries: " ++ reprDict s.console_entries]

/-- The up-front guard of `start_process` (source line 164):
`not self.selected_console or not self.console_entries.get(self.selected_console)`.
It fails when no console is selected, or the selected console has no
registry binding, or its bound directory is the empty string. -/
def startGuardFails (s : AppState) : Bool :=
  match s.selected_console with
  | none => true
  | some c =>
      if c = "" then true
      else
        match dictGet s.console_entries c with
        | none => true
        | some d => d = ""

/-- One iteration of the `start_process` loop body (source lines 171-178)
for the entry `(console_name, directory)`: log the "Processing" line; if the
directory does not exist log the error and `continue` (the progress
increment is skipped); otherwise scan, write, and add `100 / total` to the
progress bar. -/
def processEntry (fs : FileSystem) (date_str : String) (total : Nat)
    (st : AppState) (entry : String × String) : AppState :=
  let console_name := entry.1
  let directory := entry.2
  let st1 := { st with
    log := st.log ++ ["Processing " ++ console_name ++ " with directory \x27"
                        ++ directory ++ "\x27..."] }
  if fs.pathExists directory then
    let scan := get_game_titles fs directory
    let st2 := { st1 with log := st1.log ++ scan.2 }
    let w := write_game_titles fs st2.output_files directory console_name scan.1 date_str
    { st2 with
        output_files := w.outFiles
        log := st2.log ++ w.logLines
        written_files := st2.written_files
          ++ (match w.written with | some f => [f] | none => [])
        progress := st2.progress + 100 / (total : ℚ) }
  else
    { st1 with
        log := st1.log ++ ["Error: The directory \x27" ++ directory
                             ++ "\x27 does not exist."] }

/-- Model of `GameTitlesExtractor.start_process` (source lines 161-181):
debug lines, the up-front guard, then the loop over `console_entries` with
the bar reset to 0 first, and finally the completion line with the bar
forced to 100. -/
def start_process (fs : FileSystem) (date_str : String) (s : AppState) : AppState :=
  let s0 := { s with log := s.log ++ debugLines s }
  if startGuardFails s0 then
    { s0 with
        log := s0.log
          ++ ["Info: Attempt to start process without selecting both console and directory."] }
  else
    let total := s0.console_entries.length
    let s1 := { s0 with progress := 0 }
    let s2 := s0.console_entries.foldl (processEntry fs date_str total) s1
    { s2 with log := s2.log ++ ["Process completed."], progress := 100 }

/-- Log lines contributed by one loop iteration of `start_process`,
independent of the accumulated state. -/
def entryLog (fs : FileSystem) (date_str : String) (entry : String × String) :
    List String :=
  let processing := "Processing " ++ entry.1 ++ " with directory \x27"
                      ++ entry.2 ++ "\x27..."
  if fs.pathExists entry.2 then
    let scan := get_game_titles fs entry.2
    processing :: (scan.2
      ++ (write_game_titles fs [] entry.2 entry.1 scan.1 date_str).logLines)
  else
    [processing, "Error: The directory \x27" ++ entry.2 ++ "\x27 does not exist."]

/-- Specification-side rendering of a line list: lines joined by a newline
separator (used to compare the report contents against the line structure
required by the spec). -/
def linesToText : List String → String
  | [] => ""
  | [l] => l
  | l :: ls => l ++ "\n" ++ linesToText ls

/-! ## Basic facts about the scan -/

lemma filter_map_names (l : List DirEntry) :
    (l.filter (fun e => pyEndsWith e.name ".zip")).map DirEntry.name
      = (l.map DirEntry.name).filter (fun n => pyEndsWith n ".zip") := by
  induction l with
  | nil => rfl
  | cons e es ih => by_cases h : pyEndsWith e.name ".zip" <;> simp [h, ih]

lemma get_game_titles_ok (fs : FileSystem) (d : String) (entries : List DirEntry)
    (h : fs.listdir d = .ok entries) :
    (get_game_titles fs d).1
      = (entries.map DirEntry.name).filter (fun n => pyEndsWith n ".zip") := by
  simp only [get_game_titles, h]
  exact filter_map_names entries

/-! ## Fixtures used by the witnesses -/

/-- Directory listing for the NES example of the spec: `/roms/nes` holds
`Mega Man.zip` and `readme.txt`. -/
def fsNes : FileSystem where
  pathExists := fun p => p == "/roms/nes"
  listdir := fun p =>
    if p == "/roms/nes" then
      .ok [{ name := "Mega Man.zip", isDir := false },
           { name := "readme.txt", isDir := false }]
    else .notFound
  writeResult := fun _ => .ok

/-- Listing that mixes plain files with subdirectories whose names end in
`.zip`. -/
def fsMixed : FileSystem where
  pathExists := fun p => p == "/roms/mixed"
  listdir := fun p =>
    if p == "/roms/mixed" then
      .ok [{ name := "foo.zip", isDir := true },
           { name := "bar.zip", isDir := false },
           { name := "notes", isDir := true }]
    else .notFound
  writeResult := fun _ => .ok

/-- File system where every lookup fails with `FileNotFoundError`. -/
def fsMissing : FileSystem where
  pathExists := fun _ => false
  listdir := fun _ => .notFound
  writeResult := fun _ => .ok

/-! ## C1 -/

/-- C1: for every directory listing, `get_game_titles` returns exactly the
entry names ending with the literal case-sensitive suffix `.zip`, in listing
order. -/
theorem scan_returns_zip_suffix_names_in_order (fs : FileSystem) (d : String)
    (entries : List DirEntry) (h : fs.listdir d = .ok entries) :
    (get_game_titles fs d).1
      = (entries.map DirEntry.name).filter (fun n => pyEndsWith n ".zip") :=
  get_game_titles_ok fs d entries h

/-- Witness for C1: on the spec example directory, the scan returns only
`Mega Man.zip`. -/
theorem scan_returns_zip_suffix_names_in_order_witness :
    fsNes.listdir "/roms/nes"
        = .ok [{ name := "Mega Man.zip", isDir := false },
               { name := "readme.txt", isDir := false }]
    ∧ (get_game_titles fsNes "/roms/nes").1 = ["Mega Man.zip"] := by
  refine ⟨by decide, ?_⟩
  rw [scan_returns_zip_suffix_names_in_order fsNes "/roms/nes"
        [{ name := "Mega Man.zip", isDir := false },
         { name := "readme.txt", isDir := false }] (by decide)]
  decide

/-! ## C9 -/

/-- C9: the scan filter tests only the entry name, never its type: every
entry whose name ends in `.zip` is returned (subdirectories included), and
the result depends only on the listed names. -/
theorem scan_filter_ignores_entry_type (fs : FileSystem) (d : String)
    (entries : List DirEntry) (h : fs.listdir d = .ok entries) :
    (∀ e ∈ entries, pyEndsWith e.name ".zip" = true →
        e.name ∈ (get_game_titles fs d).1)
    ∧ ∀ (fs2 : FileSystem) (d2 : String) (entries2 : List DirEntry),
        fs2.listdir d2 = .ok entries2 →
        entries2.map DirEntry.name = entries.map DirEntry.name →
        (get_game_titles fs2 d2).1 = (get_game_titles fs d).1 := by
  constructor
  · intro e he hz
    rw [get_game_titles_ok fs d entries h]
    exact List.mem_filter.2 ⟨List.mem_map_of_mem _ he, hz⟩
  · intro fs2 d2 entries2 h2 hnames
    rw [get_game_titles_ok fs d entries h, get_game_titles_ok fs2 d2 entries2 h2,
        hnames]

/-- Witness for C9: the subdirectory named `foo.zip` is reported as a game
title. -/
theorem scan_filter_ignores_entry_type_witness :
    "foo.zip" ∈ (get_game_titles fsMixed "/roms/mixed").1 :=
  (scan_filter_ignores_entry_type fsMixed "/roms/mixed"
      [{ name := "foo.zip", isDir := true },
       { name := "bar.zip", isDir := false },
       { name := "notes", isDir := true }] (by decide)).1
    { name := "foo.zip", isDir := true } (by decide) (by decide)

/-! ## C7 -/

/-- C7: when the listing fails (missing directory, permission denied, or any
other error), the scan returns the empty title list and exactly one error
log line, with the directory-not-found message in the `FileNotFoundError`
case; no exception escapes, the call returns normally. -/
theorem scan_failure_empty_logged_nonfatal (fs : FileSystem) (d : String)
    (h : (fs.listdir d).isOk = false) :
    (get_game_titles fs d).1 = []
    ∧ (get_game_titles fs d).2.length = 1
    ∧ (fs.listdir d = .notFound →
        (get_game_titles fs d).2
          = ["Error: The directory \x27" ++ d ++ "\x27 does not exist."]) := by
  cases hl : fs.listdir d with
  | ok entries => rw [hl] at h; simp [ListResult.isOk] at h
  | notFound => simp [get_game_titles, hl]
  | permissionDenied => simp [get_game_titles, hl]
  | ioError e => simp [get_game_titles, hl]

/-- Witness for C7: scanning a non-existent directory yields zero titles and
the directory-not-found log line. -/
theorem scan_failure_empty_logged_nonfatal_witness :
    (get_game_titles fsMissing "/no/such/dir").1 = []
    ∧ (get_game_titles fsMissing "/no/such/dir").2
        = ["Error: The directory \x27/no/such/dir\x27 does not exist."] := by
  have T := scan_failure_empty_logged_nonfatal fsMissing "/no/such/dir" (by decide)
  exact ⟨T.1, T.2.2 (by decide)⟩

/-! ## C3 -/

/-- C3: calling `write_game_titles` with an empty title list writes no file,
leaves `output_files` unchanged, and logs the no-titles-found message. -/
theorem write_empty_titles_no_artifact (fs : FileSystem)
    (o : List (String × String)) (d c date : String) :
    (write_game_titles fs o d c [] date).written = none
    ∧ (write_game_titles fs o d c [] date).outFiles = o
    ∧ ("No game titles found in the directory: " ++ d)
        ∈ (write_game_titles fs o d c [] date).logLines := by
  simp [write_game_titles]

/-! ## C2 -/

lemma titlesBlock_eq_linesToText (g : List String) (h : g ≠ []) :
    titlesBlock g = linesToText g ++ "\n" := by
  induction g with
  | nil => cases h rfl
  | cons t ts ih =>
    cases ts with
    | nil => simp [titlesBlock, linesToText]
    | cons u us =>
      rw [titlesBlock, ih (by simp)]
      simp [linesToText, String.append_assoc]

lemma report_content_lines (c : String) (g : List String) (h : g ≠ []) :
    report_content c g
      = linesToText (("Console: " ++ c) :: warning_line c :: "" :: g) ++ "\n" := by
  have hnn : ("\n\n" : String) = "\n" ++ "\n" := by decide
  cases g with
  | nil => cases h rfl
  | cons t ts =>
    simp only [report_content, linesToText, titlesBlock_eq_linesToText (t :: ts) (by simp),
      hnn, String.append_assoc]
    simp [String.append_assoc]

/-- C2: with a non-empty title list and a successful write, the report file
is created at `{directory}/{console_name}_{date}.txt` and its contents are
the newline-joined lines: the console header, the disclaimer, a blank line,
then the titles in scan order, i.e. `N + 3` lines for `N` titles. -/
theorem write_nonempty_creates_dated_report (fs : FileSystem)
    (o : List (String × String)) (d c : String) (g : List String) (date : String)
    (hne : g ≠ [])
    (hok : fs.writeResult (joinPath d (c ++ "_" ++ date ++ ".txt")) = .ok) :
    (write_game_titles fs o d c g date).written
      = some (joinPath d (c ++ "_" ++ date ++ ".txt"),
              linesToText (("Console: " ++ c) :: warning_line c :: "" :: g) ++ "\n")
    ∧ (("Console: " ++ c) :: warning_line c :: "" :: g).length = g.length + 3 := by
  have hE : g.isEmpty = false := by
    cases g with
    | nil => cases hne rfl
    | cons a l => rfl
  constructor
  · simp [write_game_titles, hE, hok, report_content_lines c g hne]
  · simp [List.length_cons]

/-- Witness for C2: the NES report for one title, written on 2024-05-18. -/
theorem write_nonempty_creates_dated_report_witness :
    (write_game_titles fsNes [] "/roms/nes" "NES" ["Mega Man.zip"] "2024-05-18").written
      = some ("/roms/nes/NES_2024-05-18.txt",
          "Console: NES\nWarning: We do not know if the list below is actual NES game titles or not. Please double-check by yourself.\n\nMega Man.zip\n") := by
  have T := write_nonempty_creates_dated_report fsNes [] "/roms/nes" "NES"
      ["Mega Man.zip"] "2024-05-18" (by decide) (by decide)
  rw [T.1]
  decide

/-! ## Dictionary lemmas -/

lemma dictGet_cons_of_eq (p : String × String) (ps : List (String × String))
    (k2 : String) (h : (p.1 == k2) = true) :
    dictGet (p :: ps) k2 = some p.2 := by
  simp [dictGet, List.find?, h]

lemma dictGet_cons_of_ne (p : String × String) (ps : List (String × String))
    (k2 : String) (h : (p.1 == k2) = false) :
    dictGet (p :: ps) k2 = dictGet ps k2 := by
  simp [dictGet, List.find?, h]

lemma dictSet_cons_of_head_ne (p : String × String) (ps : List (String × String))
    (k v : String) (h : (p.1 == k) = false) :
    dictSet (p :: ps) k v = p :: dictSet ps k v := by
  have hne : ¬ p.1 = k := by simpa using h
  by_cases ha : ps.any (fun q => q.1 == k)
  · simp [dictSet, List.any_cons, h, ha, hne]
  · simp [dictSet, List.any_cons, h, ha, hne]

lemma dictSet_cons_of_head_eq (p : String × String) (ps : List (String × String))
    (k v : String) (h : (p.1 == k) = true) :
    dictSet (p :: ps) k v
      = (k, v) :: ps.map (fun q => if q.1 == k then (k, v) else q) := by
  have heq : p.1 = k := by simpa using h
  simp [dictSet, List.any_cons, h, heq]

lemma map_keyUpdate_id (ps : List (String × String)) (k v : String)
    (h : ps.any (fun q => q.1 == k) = false) :
    ps.map (fun q => if q.1 == k then (k, v) else q) = ps := by
  induction ps with
  | nil => rfl
  | cons q qs ih =>
    simp only [List.any_cons, Bool.or_eq_false_iff] at h
    rw [List.map_cons, if_neg (by simp [h.1]), ih h.2]

lemma dictGet_dictSet_self (d : List (String × String)) (k v : String) :
    dictGet (dictSet d k v) k = some v := by
  induction d with
  | nil => simp [dictSet, dictGet, List.find?]
  | cons p ps ih =>
    by_cases h : (p.1 == k) = true
    · rw [dictSet_cons_of_head_eq p ps k v h]
      exact dictGet_cons_of_eq (k, v) _ k (by simp)
    · have hb : (p.1 == k) = false := by simpa using h
      rw [dictSet_cons_of_head_ne p ps k v hb, dictGet_cons_of_ne p _ k hb]
      exact ih

lemma dictGet_map_keyUpdate (ps : List (String × String)) (k v k2 : String)
    (h : k2 ≠ k) :
    dictGet (ps.map (fun q => if q.1 == k then (k, v) else q)) k2
      = dictGet ps k2 := by
  induction ps with
  | nil => rfl
  | cons q qs ih =>
    by_cases hq : (q.1 == k) = true
    · have hq1 : q.1 = k := by simpa using hq
      have hk2 : ((k : String) == k2) = false := by
        simp only [beq_eq_false_iff_ne, ne_eq]
        exact fun hc => h hc.symm
      have hq2 : (q.1 == k2) = false := by rw [hq1]; exact hk2
      rw [List.map_cons, if_pos hq, dictGet_cons_of_ne (k, v) _ k2 hk2,
        dictGet_cons_of_ne q qs k2 hq2]
      exact ih
    · have hb : (q.1 == k) = false := by simpa using hq
      rw [List.map_cons, if_neg (by simp [hb])]
      by_cases hq2 : (q.1 == k2) = true
      · rw [dictGet_cons_of_eq q _ k2 hq2, dictGet_cons_of_eq q qs k2 hq2]
      · have hb2 : (q.1 == k2) = false := by simpa using hq2
        rw [dictGet_cons_of_ne q _ k2 hb2, dictGet_cons_of_ne q qs k2 hb2]
        exact ih

lemma dictGet_append_single_ne (d : List (String × String)) (k v k2 : String)
    (hk2 : ((k : String) == k2) = false) :
    dictGet (d ++ [(k, v)]) k2 = dictGet d k2 := by
  induction d with
  | nil => simp [dictGet, List.find?, hk2]
  | cons p ps ih =>
    by_cases hp2 : (p.1 == k2) = true
    · rw [List.cons_append, dictGet_cons_of_eq p _ k2 hp2,
        dictGet_cons_of_eq p ps k2 hp2]
    · have hb2 : (p.1 == k2) = false := by simpa using hp2
      rw [List.cons_append, dictGet_cons_of_ne p _ k2 hb2,
        dictGet_cons_of_ne p ps k2 hb2]
      exact ih

lemma dictGet_dictSet_ne (d : List (String × String)) (k v k2 : String)
    (h : k2 ≠ k) :
    dictGet (dictSet d k v) k2 = dictGet d k2 := by
  by_cases ha : d.any (fun p => p.1 == k) = true
  · rw [dictSet, if_pos ha]
    exact dictGet_map_keyUpdate d k v k2 h
  · rw [dictSet, if_neg ha]
    exact dictGet_append_single_ne d k v k2
      (by simp only [beq_eq_false_iff_ne, ne_eq]; exact fun hc => h hc.symm)

lemma dictKeys_dictSet_nodup (d : List (String × String)) (k v : String)
    (h : (dictKeys d).Nodup) :
    (dictKeys (dictSet d k v)).Nodup := by
  by_cases ha : d.any (fun p => p.1 == k) = true
  · have hkeys : dictKeys (dictSet d k v) = dictKeys d := by
      rw [dictSet, if_pos ha, dictKeys, dictKeys, List.map_map]
      apply List.map_congr_left
      intro p _
      by_cases hp : (p.1 == k) = true
      · have hp1 : p.1 = k := by simpa using hp
        simp [Function.comp, hp, hp1]
      · have hb : (p.1 == k) = false := by simpa using hp
        simp [Function.comp, hb]
    rw [hkeys]; exact h
  · have hnk : k ∉ dictKeys d := by
      intro hmem
      rcases List.mem_map.1 hmem with ⟨p, hp, hfst⟩
      exact ha (List.any_eq_true.2 ⟨p, hp, by simp [hfst]⟩)
    rw [dictSet, if_neg ha, dictKeys, List.map_append]
    rw [List.nodup_append]
    refine ⟨h, by simp, ?_⟩
    intro a hmem
    simp only [List.map_cons, List.map_nil, List.mem_singleton]
    intro hc
    rw [hc] at hmem
    exact hnk hmem

/-! ## C8 -/

lemma wgt_keys_nodup (fs : FileSystem) (o : List (String × String))
    (d c : String) (g : List String) (date : String)
    (h : (dictKeys o).Nodup) :
    (dictKeys (write_game_titles fs o d c g date).outFiles).Nodup := by
  by_cases hg : g.isEmpty
  · simpa [write_game_titles, hg] using h
  · cases hw : fs.writeResult (joinPath d (c ++ "_" ++ date ++ ".txt")) with
    | ok =>
      simp only [write_game_titles, hg, hw, Bool.false_eq_true, if_false]
      exact dictKeys_dictSet_nodup o c _ h
    | notFound => simpa [write_game_titles, hg, hw] using h
    | permissionDenied => simpa [write_game_titles, hg, hw] using h
    | ioError e => simpa [write_game_titles, hg, hw] using h

lemma processEntry_outFiles_nodup (fs : FileSystem) (date : String) (total : Nat)
    (st : AppState) (e : String × String)
    (h : (dictKeys st.output_files).Nodup) :
    (dictKeys (processEntry fs date total st e).output_files).Nodup := by
  by_cases hp : fs.pathExists e.2
  · simp only [processEntry, hp, if_true]
    exact wgt_keys_nodup fs st.output_files e.2 e.1 _ date h
  · simpa [processEntry, hp] using h

lemma foldl_outFiles_nodup (fs : FileSystem) (date : String) (total : Nat)
    (es : List (String × String)) (st : AppState)
    (h : (dictKeys st.output_files).Nodup) :
    (dictKeys ((es.foldl (processEntry fs date total) st)).output_files).Nodup := by
  induction es generalizing st with
  | nil => simpa using h
  | cons e es ih =>
    rw [List.foldl_cons]
    exact ih _ (processEntry_outFiles_nodup fs date total st e h)

lemma start_process_outFiles_nodup (fs : FileSystem) (date : String) (s : AppState)
    (h : (dictKeys s.output_files).Nodup) :
    (dictKeys (start_process fs date s).output_files).Nodup := by
  by_cases hg : startGuardFails { s with log := s.log ++ debugLines s } = true
  · simpa [start_process, hg] using h
  · have hg2 : startGuardFails { s with log := s.log ++ debugLines s } = false := by
      simpa using hg
    simp only [start_process, hg2, Bool.false_eq_true, if_false]
    exact foldl_outFiles_nodup fs date _ _ _ h

/-- C8: the `output_files` map keeps at most one record per console; a
record is added or overwritten exactly by a successful write, pointing at
the just-written report path; a failed or skipped write leaves the map
unchanged; and a whole run preserves key uniqueness. -/
theorem output_files_unique_latest_success (fs : FileSystem)
    (o : List (String × String)) (d c : String) (g : List String) (date : String)
    (h : (dictKeys o).Nodup) :
    (dictKeys (write_game_titles fs o d c g date).outFiles).Nodup
    ∧ ((write_game_titles fs o d c g date).written = none →
        (write_game_titles fs o d c g date).outFiles = o)
    ∧ (∀ p : String × String,
        (write_game_titles fs o d c g date).written = some p →
        dictGet (write_game_titles fs o d c g date).outFiles c = some p.1
        ∧ ∀ c2, c2 ≠ c →
            dictGet (write_game_titles fs o d c g date).outFiles c2 = dictGet o c2)
    ∧ (∀ (s : AppState) (date2 : String), (dictKeys s.output_files).Nodup →
        (dictKeys (start_process fs date2 s).output_files).Nodup) := by
  refine ⟨wgt_keys_nodup fs o d c g date h, ?_, ?_,
    fun s date2 hs => start_process_outFiles_nodup fs date2 s hs⟩
  · by_cases hg : g.isEmpty
    · intro _; simp [write_game_titles, hg]
    · cases hw : fs.writeResult (joinPath d (c ++ "_" ++ date ++ ".txt")) with
      | ok => intro hnone; simp [write_game_titles, hg, hw] at hnone
      | notFound => intro _; simp [write_game_titles, hg, hw]
      | permissionDenied => intro _; simp [write_game_titles, hg, hw]
      | ioError e => intro _; simp [write_game_titles, hg, hw]
  · intro p hp
    by_cases hg : g.isEmpty
    · simp [write_game_titles, hg] at hp
    · cases hw : fs.writeResult (joinPath d (c ++ "_" ++ date ++ ".txt")) with
      | ok =>
        simp only [write_game_titles, hg, hw, Bool.false_eq_true, if_false,
          Option.some.injEq] at hp
        subst hp
        simp only [write_game_titles, hg, hw, Bool.false_eq_true, if_false]
        exact ⟨dictGet_dictSet_self o c _,
          fun c2 hc2 => dictGet_dictSet_ne o c _ c2 hc2⟩
      | notFound => simp [write_game_titles, hg, hw] at hp
      | permissionDenied => simp [write_game_titles, hg, hw] at hp
      | ioError e => simp [write_game_titles, hg, hw] at hp

/-- Registered output files before the C8 witness write. -/
def o8 : List (String × String) :=
  [("NES", "/roms/nes/NES_2024-05-17.txt"), ("Xbox", "/x/Xbox_2024-05-17.txt")]

/-- File system used by the C8 witness: every path exists and writes
succeed. -/
def fsW8 : FileSystem where
  pathExists := fun _ => true
  listdir := fun _ => .ok []
  writeResult := fun _ => .ok

/-- Witness for C8: a successful NES write overwrites the NES record,
leaves the Xbox record alone, and keeps the keys unique. -/
theorem output_files_unique_latest_success_witness :
    (dictKeys (write_game_titles fsW8 o8 "/roms/nes" "NES" ["a.zip"] "2024-05-18").outFiles).Nodup
    ∧ dictGet (write_game_titles fsW8 o8 "/roms/nes" "NES" ["a.zip"] "2024-05-18").outFiles "NES"
        = some (joinPath "/roms/nes" ("NES" ++ "_" ++ "2024-05-18" ++ ".txt"))
    ∧ dictGet (write_game_titles fsW8 o8 "/roms/nes" "NES" ["a.zip"] "2024-05-18").outFiles "Xbox"
        = dictGet o8 "Xbox" := by
  have T := output_files_unique_latest_success fsW8 o8 "/roms/nes" "NES" ["a.zip"]
      "2024-05-18" (by decide)
  have hp := T.2.2.1 (joinPath "/roms/nes" ("NES" ++ "_" ++ "2024-05-18" ++ ".txt"),
      report_content "NES" ["a.zip"]) (by decide)
  exact ⟨T.1, hp.1, hp.2 "Xbox" (by decide)⟩

/-! ## C4 -/

lemma processEntry_progress (fs : FileSystem) (date : String) (total : Nat)
    (st : AppState) (e : String × String) :
    (processEntry fs date total st e).progress
      = if fs.pathExists e.2 then st.progress + 100 / (total : ℚ)
        else st.progress := by
  by_cases hp : fs.pathExists e.2 <;> simp [processEntry, hp]

lemma foldl_progress (fs : FileSystem) (date : String) (total : Nat)
    (es : List (String × String)) (st : AppState) :
    ((es.foldl (processEntry fs date total) st)).progress
      = st.progress
          + (100 / (total : ℚ)) * (es.countP (fun e => fs.pathExists e.2) : ℚ) := by
  induction es generalizing st with
  | nil => simp
  | cons e es ih =>
    rw [List.foldl_cons, ih, processEntry_progress]
    by_cases hp : fs.pathExists e.2
    · rw [if_pos hp, List.countP_cons]
      simp only [hp, if_true]
      push_cast
      ring
    · rw [if_neg hp, List.countP_cons]
      simp [hp]

lemma startGuardFails_set_log (s : AppState) (l : List String) :
    startGuardFails { s with log := l } = startGuardFails s := rfl

lemma start_process_progress_100 (fs : FileSystem) (date : String) (s : AppState)
    (h : startGuardFails s = false) :
    (start_process fs date s).progress = 100 := by
  have h0 : startGuardFails { s with log := s.log ++ debugLines s } = false := by
    rw [startGuardFails_set_log]; exact h
  simp [start_process, h0]

/-- C4 (amended): the bar is advanced by `100 / total` only for entries
whose directory exists; after processing any prefix the bar equals
`(100 / total) * (number of existing directories seen)`, which stays
strictly below 100 before the last entry, and is forced to 100 once every
entry has been attempted. -/
theorem progress_updates_skip_missing_directories (fs : FileSystem) (date : String)
    (total : Nat) (st : AppState) (es : List (String × String)) :
    ((es.foldl (processEntry fs date total) st)).progress
      = st.progress
          + (100 / (total : ℚ)) * (es.countP (fun e => fs.pathExists e.2) : ℚ)
    ∧ (∀ s : AppState, startGuardFails s = false →
        (start_process fs date s).progress = 100)
    ∧ (∀ k : Nat, st.progress = 0 → k < es.length →
        (((es.take k).foldl (processEntry fs date es.length) st)).progress < 100) := by
  refine ⟨foldl_progress fs date total es st,
    fun s hs => start_process_progress_100 fs date s hs, ?_⟩
  intro k h0 hk
  rw [foldl_progress, h0, zero_add]
  have hn : (0 : ℚ) < (es.length : ℚ) := by
    have hpos : 0 < es.length := Nat.lt_of_le_of_lt (Nat.zero_le k) hk
    exact_mod_cast hpos
  have hc : ((es.take k).countP (fun e => fs.pathExists e.2)) ≤ k :=
    le_trans (List.countP_le_length _)
      (by rw [List.length_take]; exact Nat.min_le_left k _)
  have hclt : (((es.take k).countP (fun e => fs.pathExists e.2) : ℚ))
      < (es.length : ℚ) := by
    exact_mod_cast Nat.lt_of_le_of_lt hc hk
  calc (100 / (es.length : ℚ)) * ((es.take k).countP (fun e => fs.pathExists e.2) : ℚ)
      < (100 / (es.length : ℚ)) * (es.length : ℚ) :=
        mul_lt_mul_of_pos_left hclt (div_pos (by norm_num) hn)
    _ = 100 := div_mul_cancel₀ 100 (ne_of_gt hn)

/-- File system for the C4 scenario: only `/good` exists, holding one zip. -/
def fsC4 : FileSystem where
  pathExists := fun p => p == "/good"
  listdir := fun p =>
    if p == "/good" then .ok [{ name := "x.zip", isDir := false }]
    else .notFound
  writeResult := fun _ => .ok

/-- Two-entry registry whose first directory is invalid, with the valid
console selected. -/
def stC4 : AppState where
  console_entries := [("A", "/bad"), ("B", "/good")]
  selected_console := some "B"
  output_files := []
  log := []
  progress := 0
  written_files := []

/-- Counterexample to C4 as stated: with two registry entries whose first
directory does not exist, after the first entry completes the bar still
reads 0, not the fraction 1/2 of 100. -/
theorem progress_fraction_after_each_entry_cex :
    (([("A", "/bad")]).foldl (processEntry fsC4 "2024-05-18" 2) stC4).progress = 0
    ∧ ((0 : ℚ) ≠ 100 * (1 / 2)) := by
  constructor
  · have hp : fsC4.pathExists "/bad" = false := by decide
    rw [List.foldl_cons, List.foldl_nil, processEntry_progress, hp]
    simp [stC4]
  · norm_num

/-- Witness for the amended C4 on the concrete two-entry scenario. -/
theorem progress_updates_skip_missing_directories_witness :
    ((([("A", "/bad"), ("B", "/good")]).foldl
        (processEntry fsC4 "2024-05-18" 2) stC4).progress
      = stC4.progress + (100 / ((2 : Nat) : ℚ))
          * (([("A", "/bad"), ("B", "/good")]).countP
              (fun e => fsC4.pathExists e.2) : ℚ))
    ∧ (start_process fsC4 "2024-05-18" stC4).progress = 100
    ∧ ((([("A", "/bad"), ("B", "/good")].take 1).foldl
          (processEntry fsC4 "2024-05-18" 2) stC4)).progress < 100 := by
  have T := progress_updates_skip_missing_directories fsC4 "2024-05-18" 2 stC4
      [("A", "/bad"), ("B", "/good")]
  exact ⟨T.1, T.2.1 stC4 (by decide), T.2.2 1 rfl (by decide)⟩

/-! ## C5 -/

/-- Benign file system for the C5 counterexample: everything exists and
succeeds. -/
def fsC5 : FileSystem where
  pathExists := fun _ => true
  listdir := fun _ => .ok []
  writeResult := fun _ => .ok

/-- Registry with one entry whose directory was never chosen (empty string),
with that console selected. -/
def stC5 : AppState where
  console_entries := [("NES", "")]
  selected_console := some "NES"
  output_files := []
  log := []
  progress := 0
  written_files := []

/-- Counterexample to C5 as stated: the registry is non-empty, yet the run
halts up front — no entry is processed and no completion is reported —
because the guard tests the selected console's directory, not registry
emptiness. -/
theorem nonempty_registry_still_blocked_cex :
    stC5.console_entries ≠ []
    ∧ "Process completed." ∉ (start_process fsC5 "2024-05-18" stC5).log
    ∧ "Processing NES with directory \x27\x27..."
        ∉ (start_process fsC5 "2024-05-18" stC5).log := by
  decide

/-- C5 (amended): `start_process` performs no work — appending only the two
debug lines and the info line — exactly when no console is selected or the
selected console's registered directory is absent or empty
(`startGuardFails`); whenever the guard passes, the run proceeds and its
final log line is the completion message. -/
theorem start_process_guard_characterization (fs : FileSystem) (date : String)
    (s : AppState) :
    (startGuardFails s = true →
       start_process fs date s
         = { s with log := s.log ++ debugLines s
               ++ ["Info: Attempt to start process without selecting both console and directory."] })
    ∧ (startGuardFails s = false →
       "Process completed." ∈ (start_process fs date s).log
       ∧ (start_process fs date s).log.getLast? = some "Process completed.") := by
  constructor
  · intro h
    have h0 : startGuardFails { s with log := s.log ++ debugLines s } = true := by
      rw [startGuardFails_set_log]; exact h
    simp [start_process, h0, List.append_assoc]
  · intro h
    have h0 : startGuardFails { s with log := s.log ++ debugLines s } = false := by
      rw [startGuardFails_set_log]; exact h
    constructor
    · simp [start_process, h0]
    · simp only [start_process, h0, Bool.false_eq_true, if_false]
      exact List.getLast?_concat _

/-- Registry and selection that pass the guard, used for the C5 witness. -/
def stC5ok : AppState where
  console_entries := [("NES", "/roms/nes")]
  selected_console := some "NES"
  output_files := []
  log := []
  progress := 0
  written_files := []

/-- Witness for the amended C5: a blocked state is left untouched except
the three log lines, and a guard-passing state reaches completion. -/
theorem start_process_guard_characterization_witness :
    start_process fsC5 "2024-05-18" stC5
      = { stC5 with log := stC5.log ++ debugLines stC5
            ++ ["Info: Attempt to start process without selecting both console and directory."] }
    ∧ "Process completed." ∈ (start_process fsNes "2024-05-18" stC5ok).log :=
  ⟨(start_process_guard_characterization fsC5 "2024-05-18" stC5).1 (by decide),
   ((start_process_guard_characterization fsNes "2024-05-18" stC5ok).2 (by decide)).1⟩

/-! ## C6 -/

lemma wgt_logLines_indep (fs : FileSystem) (o o2 : List (String × String))
    (d c : String) (g : List String) (date : String) :
    (write_game_titles fs o d c g date).logLines
      = (write_game_titles fs o2 d c g date).logLines := by
  by_cases hg : g.isEmpty
  · simp [write_game_titles, hg]
  · cases hw : fs.writeResult (joinPath d (c ++ "_" ++ date ++ ".txt")) <;>
      simp [write_game_titles, hg, hw]

lemma processEntry_log (fs : FileSystem) (date : String) (total : Nat)
    (st : AppState) (e : String × String) :
    (processEntry fs date total st e).log = st.log ++ entryLog fs date e := by
  by_cases hp : fs.pathExists e.2
  · simp only [processEntry, entryLog, hp, if_true]
    rw [wgt_logLines_indep fs st.output_files [] e.2 e.1 _ date]
    simp [List.append_assoc]
  · simp [processEntry, entryLog, hp]

lemma foldl_log (fs : FileSystem) (date : String) (total : Nat)
    (es : List (String × String)) (st : AppState) :
    ((es.foldl (processEntry fs date total) st)).log
      = st.log ++ (es.map (entryLog fs date)).flatten := by
  induction es generalizing st with
  | nil => simp
  | cons e es ih =>
    rw [List.foldl_cons, ih, processEntry_log]
    simp [List.append_assoc]

lemma entryLog_head (fs : FileSystem) (date : String) (e : String × String) :
    ("Processing " ++ e.1 ++ " with directory \x27" ++ e.2 ++ "\x27...")
      ∈ entryLog fs date e := by
  by_cases hp : fs.pathExists e.2 <;> simp [entryLog, hp]

/-- C6: once the guard passes, the run iterates every registry entry in
order — the final log is the debug lines, then each entry's log block in
registry order, then one completion line at the very end — every entry's
Processing line gets logged regardless of earlier failures, and the bar
ends at 100. -/
theorem run_never_aborts_and_reports_completion (fs : FileSystem) (date : String)
    (s : AppState) (h : startGuardFails s = false) :
    (start_process fs date s).log
      = s.log ++ debugLines s
          ++ (s.console_entries.map (entryLog fs date)).flatten
          ++ ["Process completed."]
    ∧ (∀ e ∈ s.console_entries,
        ("Processing " ++ e.1 ++ " with directory \x27" ++ e.2 ++ "\x27...")
          ∈ (start_process fs date s).log)
    ∧ (start_process fs date s).progress = 100 := by
  have h0 : startGuardFails { s with log := s.log ++ debugLines s } = false := by
    rw [startGuardFails_set_log]; exact h
  have hlog : (start_process fs date s).log
      = s.log ++ debugLines s
          ++ (s.console_entries.map (entryLog fs date)).flatten
          ++ ["Process completed."] := by
    simp only [start_process, h0, Bool.false_eq_true, if_false]
    rw [foldl_log]
  refine ⟨hlog, ?_, start_process_progress_100 fs date s h⟩
  intro e he
  rw [hlog]
  have hmem : ("Processing " ++ e.1 ++ " with directory \x27" ++ e.2 ++ "\x27...")
      ∈ (s.console_entries.map (entryLog fs date)).flatten :=
    List.mem_flatten.2 ⟨entryLog fs date e, List.mem_map_of_mem _ he,
      entryLog_head fs date e⟩
  simp [hmem]

/-- Witness for C6: first directory invalid, second valid — both entries are
attempted, exactly one error line is logged for the first, the second
entry's report is written in full, and the bar reaches 100. -/
theorem run_never_aborts_and_reports_completion_witness :
    ("Processing A with directory \x27/bad\x27..."
        ∈ (start_process fsC4 "2024-05-18" stC4).log)
    ∧ ("Processing B with directory \x27/good\x27..."
        ∈ (start_process fsC4 "2024-05-18" stC4).log)
    ∧ (start_process fsC4 "2024-05-18" stC4).log.count
        "Error: The directory \x27/bad\x27 does not exist." = 1
    ∧ (start_process fsC4 "2024-05-18" stC4).written_files
        = [("/good/B_2024-05-18.txt", report_content "B" ["x.zip"])]
    ∧ (start_process fsC4 "2024-05-18" stC4).progress = 100 := by
  have T := run_never_aborts_and_reports_completion fsC4 "2024-05-18" stC4 (by decide)
  exact ⟨T.2.1 ("A", "/bad") (by decide), T.2.1 ("B", "/good") (by decide),
    by decide, by decide, T.2.2⟩

/-! ## C10 -/

lemma any_eq_false_of_dictGet_none (d : List (String × String)) (k : String)
    (h : dictGet d k = none) : d.any (fun p => p.1 == k) = false := by
  induction d with
  | nil => rfl
  | cons p ps ih =>
    by_cases hp : (p.1 == k) = true
    · rw [dictGet_cons_of_eq p ps k hp] at h
      simp at h
    · have hb : (p.1 == k) = false := by simpa using hp
      rw [dictGet_cons_of_ne p ps k hb] at h
      simp [List.any_cons, hb, ih h]

lemma dictSet_same_value (d : List (String × String)) (k d0 : String)
    (hnd : (dictKeys d).Nodup) (h : dictGet d k = some d0) :
    dictSet d k d0 = d := by
  induction d with
  | nil => simp [dictGet] at h
  | cons p ps ih =>
    have hkeys : dictKeys (p :: ps) = p.1 :: dictKeys ps := rfl
    rw [hkeys] at hnd
    by_cases hp : (p.1 == k) = true
    · have hp1 : p.1 = k := by simpa using hp
      have hv : p.2 = d0 := by
        rw [dictGet_cons_of_eq p ps k hp] at h
        exact Option.some.inj h
      rw [dictSet_cons_of_head_eq p ps k d0 hp]
      have hmap : ps.map (fun q => if q.1 == k then (k, d0) else q) = ps := by
        apply map_keyUpdate_id
        rw [List.any_eq_false]
        intro q hq
        have hne : q.1 ≠ p.1 := by
          intro hcontra
          exact (List.nodup_cons.1 hnd).1 (hcontra ▸ List.mem_map_of_mem Prod.fst hq)
        simp [hp1 ▸ hne]
      rw [hmap]
      have hpair : (k, d0) = p := by
        cases p with
        | mk a b =>
          simp only at hp1 hv
          rw [hp1, hv]
      rw [hpair]
    · have hb : (p.1 == k) = false := by simpa using hp
      rw [dictSet_cons_of_head_ne p ps k d0 hb]
      rw [dictGet_cons_of_ne p ps k hb] at h
      rw [ih (List.nodup_cons.1 hnd).2 h]

/-- C10: selecting a console never assigned a directory inserts a registry
binding to the empty string and grows the entry count by one; re-selecting
a console keeps its stored directory; during a run an empty-string entry is
counted in the total but skipped with a directory-does-not-exist error,
leaving everything except the log untouched. -/
theorem select_console_empty_binding_skipped (s : AppState) (c : String)
    (hc : c ≠ "") :
    (dictGet s.console_entries c = none →
       (select_console s c).console_entries = s.console_entries ++ [(c, "")]
       ∧ (select_console s c).console_entries.length
           = s.console_entries.length + 1)
    ∧ ((dictKeys s.console_entries).Nodup →
       ∀ d0, dictGet s.console_entries c = some d0 →
         (select_console s c).console_entries = s.console_entries)
    ∧ (∀ (fs : FileSystem) (date : String) (total : Nat) (st : AppState),
        fs.pathExists "" = false →
        (processEntry fs date total st (c, "")).log
          = st.log ++ ["Processing " ++ c ++ " with directory \x27\x27...",
                       "Error: The directory \x27\x27 does not exist."]
        ∧ (processEntry fs date total st (c, "")).output_files = st.output_files
        ∧ (processEntry fs date total st (c, "")).progress = st.progress
        ∧ (processEntry fs date total st (c, "")).written_files
            = st.written_files) := by
  refine ⟨?_, ?_, ?_⟩
  · intro h
    have ha := any_eq_false_of_dictGet_none s.console_entries c h
    constructor
    · simp [select_console, hc, dictSet, ha, h]
    · simp [select_console, hc, dictSet, ha, h]
  · intro hnd d0 h
    simp only [select_console, hc, ne_eq, not_false_eq_true, if_true, h,
      Option.getD_some]
    exact dictSet_same_value s.console_entries c d0 hnd h
  · intro fs date total st hpe
    refine ⟨?_, by simp [processEntry, hpe], by simp [processEntry, hpe],
      by simp [processEntry, hpe]⟩
    simp only [processEntry, hpe, Bool.false_eq_true, if_false]
    simp [List.append_assoc]
    rw [String.append_assoc]
    congr 1

/-- Registry that has never seen the Atari console. -/
def s10 : AppState where
  console_entries := [("NES", "/roms/nes")]
  selected_console := some "NES"
  output_files := []
  log := []
  progress := 0
  written_files := []

/-- Registry where the Atari console already has a directory. -/
def s10b : AppState where
  console_entries := [("Atari 2600", "/roms/atari")]
  selected_console := some "Atari 2600"
  output_files := []
  log := []
  progress := 0
  written_files := []

/-- Mid-run state holding an empty-string entry for the Atari console. -/
def st10 : AppState where
  console_entries := [("Atari 2600", "")]
  selected_console := some "Atari 2600"
  output_files := [("NES", "/roms/nes/NES_2024-05-17.txt")]
  log := ["earlier line"]
  progress := 0
  written_files := []

/-- Witness for C10: fresh selection inserts an empty binding, re-selection
keeps the stored directory, and the empty-string entry is skipped without
touching outputs. -/
theorem select_console_empty_binding_skipped_witness :
    (select_console s10 "Atari 2600").console_entries
        = [("NES", "/roms/nes"), ("Atari 2600", "")]
    ∧ (select_console s10b "Atari 2600").console_entries
        = [("Atari 2600", "/roms/atari")]
    ∧ (processEntry fsMissing "2024-05-18" 1 st10 ("Atari 2600", "")).output_files
        = st10.output_files
    ∧ (processEntry fsMissing "2024-05-18" 1 st10 ("Atari 2600", "")).written_files
        = st10.written_files := by
  have T := select_console_empty_binding_skipped s10 "Atari 2600" (by decide)
  have T2 := select_console_empty_binding_skipped s10b "Atari 2600" (by decide)
  have P := T.2.2 fsMissing "2024-05-18" 1 st10 (by decide)
  exact ⟨(T.1 (by decide)).1, T2.2.1 (by decide) "/roms/atari" (by decide),
    P.2.1, P.2.2.2⟩
